import Mathlib

/-!
Verification of the TUM dataset reader (`mrhash/apps/utils/tum_reader.py`).

The reader parses three timestamped list files (`rgb.txt`, `depth.txt`,
`groundtruth.txt`-or-`poses.txt`), associates the streams by nearest
timestamp within a 0.02 s tolerance, and exposes the matches as an
indexable, iterable sequence of frames.

Modelling conventions: Python floats are modelled as exact rationals
(timestamps, poses, pixel values); the 0.02 s tolerance is `1/50`.
The file system is a value of type `FS` mapping paths to contents.
Python exceptions become `Except`/`Option` failures.
-/

/-- A parsed metadata record: timestamp plus the remaining whitespace
tokens of the line (`parts[1:]` in `read_file_list`). -/
abbrev TumRec := ℚ × List String

/-- Default record used with `List.getD`. -/
def recD : TumRec := (0, [])

/-- The 20 ms association threshold (`0.02` in `load_tum_data`). -/
def tol : ℚ := 1 / 50

/-- Core of `np.argmin(np.abs(timestamps - rgb_ts))`: returns the index and
value of the first minimal absolute difference, scanning left to right
(the head of the list wins ties, matching numpy's first-occurrence rule). -/
def bestAux (ts : ℚ) : List TumRec → Option (ℕ × ℚ)
  | [] => none
  | r :: rest =>
    match bestAux ts rest with
    | none => some (0, |r.1 - ts|)
    | some (j, v) =>
      if v < |r.1 - ts| then some (j + 1, v) else some (0, |r.1 - ts|)

/-- Index of the record whose timestamp is nearest to `ts`
(`np.argmin(np.abs(arr - ts))`); `none` exactly on the empty list,
where numpy would raise. -/
def bestMatch (ts : ℚ) (l : List TumRec) : Option ℕ :=
  (bestAux ts l).map Prod.fst

/-- Specification-side statement, from the spec's words: index `i` holds
the record with minimum absolute timestamp difference from `ts`, and is
the first such minimum when several are tied. -/
def NearestFirst (ts : ℚ) (l : List TumRec) (i : ℕ) : Prop :=
  i < l.length ∧
  (∀ j, j < l.length → |(l.getD i recD).1 - ts| ≤ |(l.getD j recD).1 - ts|) ∧
  (∀ j, j < i → |(l.getD i recD).1 - ts| < |(l.getD j recD).1 - ts|)

/-- One emitted association match (the dict appended to `matches`). -/
structure TMatch where
  rgb : String
  depth : String
  pose : List String
deriving DecidableEq, Repr

/-- The body of the association loop for one color record `r`:
nearest depth record, 0.02 s check, nearest pose record, 0.02 s check,
then the emitted match (`rgb_data[0]`, `depth_list[d_idx][1][0]`,
`pose_list[p_idx][1]`).  `continue` branches are `none`. -/
def emit (depth pose : List TumRec) (r : TumRec) : Option TMatch :=
  match bestMatch r.1 depth with
  | none => none
  | some di =>
    if tol < |(depth.getD di recD).1 - r.1| then none
    else
      match bestMatch r.1 pose with
      | none => none
      | some pi =>
        if tol < |(pose.getD pi recD).1 - r.1| then none
        else some ⟨r.2.headI, (depth.getD di recD).2.headI, (pose.getD pi recD).2⟩

/-- The association loop over the full color list, in color-list order. -/
def associate (rgb depth pose : List TumRec) : List TMatch :=
  rgb.filterMap (emit depth pose)

/-- Parsing of the 7 leading pose tokens
(`float(p[0]) … float(p[6])` in `load_tum_data`): translation
`(tx, ty, tz)` and quaternion `(qx, qy, qz, qw)`.  A missing token
(Python `IndexError`) or a non-numeric token (Python `ValueError`) makes
the whole parse fail.  `pnum` models Python's `float()` on a token. -/
def parsePose (pnum : String → Option ℚ) (p : List String) :
    Option ((ℚ × ℚ × ℚ) × (ℚ × ℚ × ℚ × ℚ)) := do
  let t0 ← p.get? 0 >>= pnum
  let t1 ← p.get? 1 >>= pnum
  let t2 ← p.get? 2 >>= pnum
  let t3 ← p.get? 3 >>= pnum
  let t4 ← p.get? 4 >>= pnum
  let t5 ← p.get? 5 >>= pnum
  let t6 ← p.get? 6 >>= pnum
  pure ((t0, t1, t2), (t3, t4, t5, t6))

/-- One raw line of a list file: whether the raw line starts with `#`
(the comment check in `read_file_list`) and its whitespace tokens. -/
structure TLine where
  isComment : Bool
  toks : List String
deriving DecidableEq

/-- The inner `read_file_list`: skip comment lines, parse the first token
of each remaining line as the timestamp, keep the rest as tokens.  A line
without a numeric first token aborts the whole read (`none`). -/
def read_file_list (pnum : String → Option ℚ) (ls : List TLine) :
    Option (List TumRec) :=
  (ls.filter (fun l => !l.isComment)).mapM
    (fun l => (l.toks.get? 0 >>= pnum).map (fun ts => (ts, l.toks.tail)))

/-- The storage the reader sees: text list files by path, and raster
content by path (`Image.open` of a depth image as a grid of raw integer
pixels; of a color image after `.convert("RGB")` as a grid of RGB
triples). -/
structure FS where
  files : String → Option (List TLine)
  depthImg : String → List (List ℕ)
  rgbImg : String → List (List (ℕ × ℕ × ℕ))

/-- Errors that abort construction: a missing list file
(`FileNotFoundError` from `open`), a malformed line or pose field
(`ValueError`/`IndexError` during parsing), or `np.argmin` on an empty
array (`ValueError`). -/
inductive LoadErr where
  | missingFile
  | badParse
  | valueError
deriving DecidableEq, Repr

/-- Pose-file resolution: `groundtruth.txt` if it exists on storage,
otherwise `poses.txt` (the `pose_file.exists()` check). -/
def resolvePoseFile (fs : FS) (dir : String) : String :=
  if (fs.files (dir ++ "/groundtruth.txt")).isSome then dir ++ "/groundtruth.txt"
  else dir ++ "/poses.txt"

/-- Open a list file and parse it: a missing file is `missingFile`, a
malformed line is `badParse`. -/
def openAndRead (pnum : String → Option ℚ) (fs : FS) (path : String) :
    Except LoadErr (List TumRec) :=
  match fs.files path with
  | none => .error .missingFile
  | some ls =>
    match read_file_list pnum ls with
    | none => .error .badParse
    | some recs => .ok recs

/-- `np.argmin` raises on an empty array.  The loop crashes iff the color
list is nonempty and the depth list empty (first iteration), or the pose
list is empty and some color record passes the depth-stage check. -/
def assocCrash (rgb depth pose : List TumRec) : Bool :=
  (!rgb.isEmpty && depth.isEmpty) ||
  (pose.isEmpty && rgb.any (fun r =>
    match bestMatch r.1 depth with
    | none => false
    | some di => !(tol < |(depth.getD di recD).1 - r.1|)))

/-- `load_tum_data`: locate the three list files, parse them, associate,
parse each match's pose tokens, and return the directory-joined image
paths together with the eager pose and quaternion arrays. -/
def load_tum_data (pnum : String → Option ℚ) (fs : FS) (dir : String) :
    Except LoadErr
      (List String × List String × List (ℚ × ℚ × ℚ) × List (ℚ × ℚ × ℚ × ℚ)) := do
  let rgb_list ← openAndRead pnum fs (dir ++ "/rgb.txt")
  let depth_list ← openAndRead pnum fs (dir ++ "/depth.txt")
  let pose_list ← openAndRead pnum fs (resolvePoseFile fs dir)
  if assocCrash rgb_list depth_list pose_list then .error .valueError
  else
    let ms := associate rgb_list depth_list pose_list
    match ms.mapM (fun m => parsePose pnum m.pose) with
    | none => .error .badParse
    | some pqs =>
      .ok (ms.map (fun m => dir ++ "/" ++ m.rgb),
           ms.map (fun m => dir ++ "/" ++ m.depth),
           pqs.map Prod.fst, pqs.map Prod.snd)

/-- The reader's state after construction: stored parameters, the
resolved image paths, the eager pose arrays, and the iteration cursor. -/
structure TUMReader where
  data_dir : String
  min_range : ℚ
  max_range : ℚ
  depth_scaling : ℚ
  rgb_images : List String
  depth_images : List String
  poses : List (ℚ × ℚ × ℚ)
  quats : List (ℚ × ℚ × ℚ × ℚ)
  file_index : ℕ
deriving DecidableEq

/-- `__init__`: store the parameters, run `load_tum_data`, set the cursor
to 0.  Construction fails exactly when loading does. -/
def mkReader (pnum : String → Option ℚ) (fs : FS) (dir : String)
    (min_range max_range depth_scaling : ℚ) : Except LoadErr TUMReader :=
  (load_tum_data pnum fs dir).map (fun r =>
    { data_dir := dir, min_range := min_range, max_range := max_range,
      depth_scaling := depth_scaling,
      rgb_images := r.1, depth_images := r.2.1,
      poses := r.2.2.1, quats := r.2.2.2, file_index := 0 })

/-- `len(self)` is `len(self.rgb_images)`. -/
def TUMReader.len (r : TUMReader) : ℕ := r.rgb_images.length

/-- Python list subscripting `l[i]` for an integer index: nonnegative
indices are direct, negative indices count from the end; out of range on
either side is `none` (`IndexError`). -/
def pyGet (l : List α) (i : ℤ) : Option α :=
  if 0 ≤ i then l.get? i.toNat
  else if 0 ≤ i + l.length then l.get? (i + l.length).toNat
  else none

/-- The error `__getitem__` can raise. -/
inductive GetErr where
  | indexError
deriving DecidableEq, Repr

/-- The tuple returned by `__getitem__`: 1-based external index,
translation, quaternion, scaled depth map, color image as floats. -/
structure Frame where
  idx : ℤ
  translation : ℚ × ℚ × ℚ
  quat : ℚ × ℚ × ℚ × ℚ
  depth : List (List ℚ)
  rgb : List (List (ℚ × ℚ × ℚ))
deriving DecidableEq

/-- `__getitem__`: first the explicit `item >= len(self)` bound check,
then Python subscripts into the pose, quaternion and path lists (negative
indices wrap), loads the depth raster and divides every pixel by
`depth_scaling`, loads the color raster as floats, and returns
`(item + 1, translation, quat, depth, rgb)`. -/
def getitem (fs : FS) (r : TUMReader) (item : ℤ) : Except GetErr Frame :=
  if (r.len : ℤ) ≤ item then .error .indexError
  else
    match pyGet r.poses item, pyGet r.quats item,
          pyGet r.depth_images item, pyGet r.rgb_images item with
    | some translation, some quat, some dpath, some rpath =>
      .ok { idx := item + 1, translation := translation, quat := quat,
            depth := (fs.depthImg dpath).map
              (List.map (fun (v : ℕ) => (v : ℚ) / r.depth_scaling)),
            rgb := (fs.rgbImg rpath).map
              (List.map (fun c => ((c.1 : ℚ), (c.2.1 : ℚ), (c.2.2 : ℚ)))) }
    | _, _, _, _ => .error .indexError

/-- The construction invariant: the four stored lists have one entry per
match. -/
def TUMReader.WellFormed (r : TUMReader) : Prop :=
  r.depth_images.length = r.len ∧ r.poses.length = r.len ∧ r.quats.length = r.len

/-- The frame `__getitem__` returns at a valid nonnegative index of a
well-formed reader. -/
def frameAt (fs : FS) (r : TUMReader) (i : ℕ) : Frame :=
  { idx := (i : ℤ) + 1,
    translation := r.poses.getD i (0, 0, 0),
    quat := r.quats.getD i (0, 0, 0, 0),
    depth := (fs.depthImg (r.depth_images.getD i "")).map
      (List.map (fun (v : ℕ) => (v : ℚ) / r.depth_scaling)),
    rgb := (fs.rgbImg (r.rgb_images.getD i "")).map
      (List.map (fun c => ((c.1 : ℚ), (c.2.1 : ℚ), (c.2.2 : ℚ)))) }

/-- `__iter__`: reset the cursor, return the same reader. -/
def iterReset (r : TUMReader) : TUMReader := { r with file_index := 0 }

/-- `__next__`: `StopIteration` (`none`) once the cursor reaches the
length; otherwise `self[self.file_index]`, then advance the cursor. -/
def nextStep (fs : FS) (r : TUMReader) : Option (Frame × TUMReader) :=
  if r.len ≤ r.file_index then none
  else
    match getitem fs r (r.file_index : ℤ) with
    | .ok f => some (f, { r with file_index := r.file_index + 1 })
    | .error _ => none

/-- Run `__next__` until exhaustion, collecting the yielded frames
(fuel-bounded; `r.len` steps always suffice after a reset). -/
def drain (fs : FS) : ℕ → TUMReader → List Frame
  | 0, _ => []
  | fuel + 1, r =>
    match nextStep fs r with
    | none => []
    | some (f, r') => f :: drain fs fuel r'

/-- A full `for`-loop over the reader: `__iter__` then repeated
`__next__`. -/
def iterate (fs : FS) (r : TUMReader) : List Frame :=
  drain fs (iterReset r).len (iterReset r)

instance {ε α : Type} [DecidableEq ε] [DecidableEq α] : DecidableEq (Except ε α) :=
  fun x y =>
    match x, y with
    | .ok a, .ok b =>
      if h : a = b then .isTrue (by rw [h]) else .isFalse (by simp [h])
    | .error a, .error b =>
      if h : a = b then .isTrue (by rw [h]) else .isFalse (by simp [h])
    | .ok _, .error _ => .isFalse (by simp)
    | .error _, .ok _ => .isFalse (by simp)

/-- A tiny concrete numeric parser (a fragment of Python's `float()`),
for exercising the development on a concrete dataset. -/
def pnum0 : String → Option ℚ := fun s =>
  if s = "0.10" then some (1 / 10) else
  if s = "0.11" then some (11 / 100) else
  if s = "1.0" then some 1 else
  if s = "2.0" then some 2 else
  if s = "3.0" then some 3 else
  if s = "0.0" then some 0 else
  none

/-- A concrete one-frame dataset under directory `d`: one color record at
t = 0.10, one depth record at t = 0.11 (within tolerance), one pose
record at t = 0.10 behind a comment line. -/
def fs0 : FS where
  files := fun p =>
    if p = "d/rgb.txt" then some [⟨false, ["0.10", "rgb1.png"]⟩]
    else if p = "d/depth.txt" then some [⟨false, ["0.11", "dep1.png"]⟩]
    else if p = "d/groundtruth.txt" then
      some [⟨true, ["#", "comment"]⟩,
            ⟨false, ["0.10", "1.0", "2.0", "3.0", "0.0", "0.0", "0.0", "1.0"]⟩]
    else none
  depthImg := fun _ => [[5, 10]]
  rgbImg := fun _ => [[(1, 2, 3)]]

/-- The reader `fs0` construction produces. -/
def reader0 : TUMReader :=
  { data_dir := "d", min_range := 1 / 100, max_range := 30, depth_scaling := 5000,
    rgb_images := ["d/rgb1.png"], depth_images := ["d/dep1.png"],
    poses := [(1, 2, 3)], quats := [(0, 0, 0, 1)], file_index := 0 }

/-- Like `fs0` but with no pose list file at all: `groundtruth.txt` is
absent so `poses.txt` is chosen, and it is missing too. -/
def fsM : FS where
  files := fun p =>
    if p = "d/rgb.txt" then some [⟨false, ["0.10", "rgb1.png"]⟩]
    else if p = "d/depth.txt" then some [⟨false, ["0.11", "dep1.png"]⟩]
    else none
  depthImg := fun _ => [[5, 10]]
  rgbImg := fun _ => [[(1, 2, 3)]]

/-- A dataset whose color list holds only a comment line: construction
succeeds with an empty match list. -/
def fs1 : FS where
  files := fun p =>
    if p = "d/rgb.txt" then some [⟨true, ["#", "rgb", "list"]⟩]
    else if p = "d/depth.txt" then some [⟨false, ["0.11", "dep1.png"]⟩]
    else if p = "d/groundtruth.txt" then
      some [⟨false, ["0.10", "1.0", "2.0", "3.0", "0.0", "0.0", "0.0", "1.0"]⟩]
    else none
  depthImg := fun _ => [[5, 10]]
  rgbImg := fun _ => [[(1, 2, 3)]]

/-- The empty reader `fs1` construction produces, for given range
parameters. -/
def readerE (min_range max_range : ℚ) : TUMReader :=
  { data_dir := "d", min_range := min_range, max_range := max_range,
    depth_scaling := 5000, rgb_images := [], depth_images := [],
    poses := [], quats := [], file_index := 0 }

/-- `bestAux` fails exactly on the empty list. -/
theorem bestAux_eq_none_iff (ts : ℚ) (l : List TumRec) :
    bestAux ts l = none ↔ l = [] := by
  cases l with
  | nil => simp [bestAux]
  | cons r rest =>
    simp only [bestAux]
    cases h : bestAux ts rest with
    | none => simp
    | some jv =>
      obtain ⟨j, v⟩ := jv
      by_cases hv : v < |r.1 - ts| <;> simp [hv]

/-- Soundness of the left-to-right scan: the returned index is in range,
the returned value is its absolute difference, it is a global minimum,
and it is strictly better than every earlier index. -/
theorem bestAux_spec (ts : ℚ) :
    ∀ (l : List TumRec) (j : ℕ) (v : ℚ), bestAux ts l = some (j, v) →
      j < l.length ∧ v = |(l.getD j recD).1 - ts| ∧
      (∀ k, k < l.length → v ≤ |(l.getD k recD).1 - ts|) ∧
      (∀ k, k < j → v < |(l.getD k recD).1 - ts|) := by
  intro l
  induction l with
  | nil => intro j v h; simp [bestAux] at h
  | cons r rest ih =>
    intro j v h
    simp only [bestAux] at h
    cases hrest : bestAux ts rest with
    | none =>
      rw [hrest] at h
      simp only [Option.some.injEq, Prod.mk.injEq] at h
      obtain ⟨rfl, rfl⟩ := h
      have hempty : rest = [] := (bestAux_eq_none_iff ts rest).mp hrest
      subst hempty
      refine ⟨by simp, by simp, ?_, by omega⟩
      intro k hk
      have hk0 : k = 0 := by simpa using hk
      subst hk0
      simp
    | some jv =>
      obtain ⟨j', v'⟩ := jv
      rw [hrest] at h
      obtain ⟨hj', hv', hmin', hfirst'⟩ := ih j' v' hrest
      have h : (if v' < |r.1 - ts| then some (j' + 1, v')
                else some (0, |r.1 - ts|)) = some (j, v) := h
      by_cases hlt : v' < |r.1 - ts|
      · rw [if_pos hlt] at h
        simp only [Option.some.injEq, Prod.mk.injEq] at h
        obtain ⟨rfl, rfl⟩ := h
        refine ⟨by simpa using hj', by simpa using hv', ?_, ?_⟩
        · intro k hk
          cases k with
          | zero => simpa using le_of_lt hlt
          | succ k' => simpa using hmin' k' (by simpa using hk)
        · intro k hk
          cases k with
          | zero => simpa using hlt
          | succ k' => simpa using hfirst' k' (by omega)
      · rw [if_neg hlt] at h
        simp only [Option.some.injEq, Prod.mk.injEq] at h
        obtain ⟨rfl, rfl⟩ := h
        push_neg at hlt
        refine ⟨by simp, by simp, ?_, by omega⟩
        intro k hk
        cases k with
        | zero => simp
        | succ k' =>
          calc |r.1 - ts| ≤ v' := hlt
            _ ≤ |(rest.getD k' recD).1 - ts| := hmin' k' (by simpa using hk)
            _ = |(((r :: rest).getD (k' + 1) recD).1 - ts)| := by
                  rw [List.getD_cons_succ]

/-- There is at most one first minimum. -/
theorem nearestFirst_unique {ts : ℚ} {l : List TumRec} {i i' : ℕ}
    (h : NearestFirst ts l i) (h' : NearestFirst ts l i') : i = i' := by
  obtain ⟨hi, hmin, hfirst⟩ := h
  obtain ⟨hi', hmin', hfirst'⟩ := h'
  rcases lt_trichotomy i i' with hlt | heq | hgt
  · have h1 := hfirst' i hlt
    have h2 := hmin i' hi'
    linarith
  · exact heq
  · have h1 := hfirst i' hgt
    have h2 := hmin' i hi
    linarith

/-- `bestMatch` computes exactly the first minimum of the absolute
timestamp differences: the code's `np.argmin` selection agrees with the
spec's "minimum difference, first such minimum on ties". -/
theorem bestMatch_iff (ts : ℚ) (l : List TumRec) (i : ℕ) :
    bestMatch ts l = some i ↔ NearestFirst ts l i := by
  constructor
  · intro h
    simp only [bestMatch, Option.map_eq_some'] at h
    obtain ⟨⟨j, v⟩, hjv, hj⟩ := h
    obtain ⟨h1, h2, h3, h4⟩ := bestAux_spec ts l j v hjv
    subst hj
    exact ⟨h1, fun k hk => h2 ▸ h3 k hk, fun k hk => h2 ▸ h4 k hk⟩
  · intro h
    have hne : l ≠ [] := by
      intro hl
      subst hl
      exact absurd h.1 (by simp)
    cases hb : bestAux ts l with
    | none => exact absurd ((bestAux_eq_none_iff ts l).mp hb) hne
    | some jv =>
      obtain ⟨j, v⟩ := jv
      obtain ⟨h1, h2, h3, h4⟩ := bestAux_spec ts l j v hb
      have hnf : NearestFirst ts l j :=
        ⟨h1, fun k hk => h2 ▸ h3 k hk, fun k hk => h2 ▸ h4 k hk⟩
      have : j = i := nearestFirst_unique hnf h
      subst this
      simp [bestMatch, hb]

/-- `bestMatch` fails exactly on the empty list. -/
theorem bestMatch_eq_none_iff (ts : ℚ) (l : List TumRec) :
    bestMatch ts l = none ↔ l = [] := by
  simp [bestMatch, bestAux_eq_none_iff]

/-- Characterization of one loop iteration: a match is emitted for color
record `r` exactly when the first-minimum depth and pose records both lie
within the tolerance, and then the match carries the color record's own
file-path token, the depth record's file-path token, and the pose
record's tokens. -/
theorem emit_eq_some_iff (depth pose : List TumRec) (r : TumRec) (m : TMatch) :
    emit depth pose r = some m ↔
      ∃ di pi, NearestFirst r.1 depth di ∧ |(depth.getD di recD).1 - r.1| ≤ tol ∧
        NearestFirst r.1 pose pi ∧ |(pose.getD pi recD).1 - r.1| ≤ tol ∧
        m = ⟨r.2.headI, (depth.getD di recD).2.headI, (pose.getD pi recD).2⟩ := by
  constructor
  · intro h
    simp only [emit] at h
    cases hd : bestMatch r.1 depth with
    | none => rw [hd] at h; exact absurd h (by simp)
    | some di =>
      rw [hd] at h
      have h : (if tol < |(depth.getD di recD).1 - r.1| then none
                else
                  match bestMatch r.1 pose with
                  | none => none
                  | some pi =>
                    if tol < |(pose.getD pi recD).1 - r.1| then none
                    else some ⟨r.2.headI, (depth.getD di recD).2.headI,
                               (pose.getD pi recD).2⟩) = some m := h
      by_cases hdt : tol < |(depth.getD di recD).1 - r.1|
      · rw [if_pos hdt] at h; exact absurd h (by simp)
      · rw [if_neg hdt] at h
        cases hp : bestMatch r.1 pose with
        | none => rw [hp] at h; exact absurd h (by simp)
        | some pi =>
          rw [hp] at h
          have h : (if tol < |(pose.getD pi recD).1 - r.1| then none
                    else some (⟨r.2.headI, (depth.getD di recD).2.headI,
                               (pose.getD pi recD).2⟩ : TMatch)) = some m := h
          by_cases hpt : tol < |(pose.getD pi recD).1 - r.1|
          · rw [if_pos hpt] at h; exact absurd h (by simp)
          · rw [if_neg hpt] at h
            refine ⟨di, pi, (bestMatch_iff _ _ _).mp hd, le_of_not_lt hdt,
                    (bestMatch_iff _ _ _).mp hp, le_of_not_lt hpt, ?_⟩
            simpa using h.symm
  · rintro ⟨di, pi, hdn, hdt, hpn, hpt, rfl⟩
    have hd : bestMatch r.1 depth = some di := (bestMatch_iff _ _ _).mpr hdn
    have hp : bestMatch r.1 pose = some pi := (bestMatch_iff _ _ _).mpr hpn
    have e1 : emit depth pose r =
        (if tol < |(depth.getD di recD).1 - r.1| then none
         else if tol < |(pose.getD pi recD).1 - r.1| then none
         else some ⟨r.2.headI, (depth.getD di recD).2.headI, (pose.getD pi recD).2⟩) := by
      rw [emit, hd]
      show (if tol < |(depth.getD di recD).1 - r.1| then none
            else
              match bestMatch r.1 pose with
              | none => none
              | some pi =>
                if tol < |(pose.getD pi recD).1 - r.1| then none
                else some (⟨r.2.headI, (depth.getD di recD).2.headI,
                           (pose.getD pi recD).2⟩ : TMatch)) =
           (if tol < |(depth.getD di recD).1 - r.1| then none
            else if tol < |(pose.getD pi recD).1 - r.1| then none
            else some (⟨r.2.headI, (depth.getD di recD).2.headI,
                       (pose.getD pi recD).2⟩ : TMatch))
      by_cases h1 : tol < |(depth.getD di recD).1 - r.1|
      · rw [if_pos h1, if_pos h1]
      · rw [if_neg h1, if_neg h1, hp]
    rw [e1, if_neg (not_lt_of_le hdt), if_neg (not_lt_of_le hpt)]

/-- Helper: the length of a `filterMap` is the count of inputs on which
the function succeeds. -/
theorem length_filterMap_eq_countP {α β : Type} (f : α → Option β) (l : List α) :
    (l.filterMap f).length = l.countP (fun a => (f a).isSome) := by
  induction l with
  | nil => rfl
  | cons a l ih => cases h : f a <;> simp [List.filterMap_cons, h, List.countP_cons, ih]

/-- C1: construction builds the match list as exactly, in color-list
order, those color records whose nearest depth record and nearest pose
record (each by minimum absolute timestamp difference, first minimum on
ties) both lie within the 0.02 s tolerance; each emitted match carries
the color record's own file-path token, the matched depth record's
file-path token, and the matched pose record's tokens, and the length
equals the number of such color records. -/
theorem associate_builds_exact_matches (rgb depth pose : List TumRec)
    (hd : depth ≠ []) (hp : pose ≠ []) :
    associate rgb depth pose = rgb.filterMap (emit depth pose) ∧
    (∀ r m, emit depth pose r = some m ↔
      ∃ di pi, NearestFirst r.1 depth di ∧ |(depth.getD di recD).1 - r.1| ≤ tol ∧
        NearestFirst r.1 pose pi ∧ |(pose.getD pi recD).1 - r.1| ≤ tol ∧
        m = ⟨r.2.headI, (depth.getD di recD).2.headI, (pose.getD pi recD).2⟩) ∧
    (associate rgb depth pose).length
      = rgb.countP (fun r => (emit depth pose r).isSome) :=
  ⟨rfl, fun r m => emit_eq_some_iff depth pose r m,
   length_filterMap_eq_countP (emit depth pose) rgb⟩

/-- Witness for C1 on a concrete one-record dataset. -/
theorem associate_builds_exact_matches_witness :
    (([(((11 : ℚ)/100), ["dep1.png"])] : List TumRec) ≠ []) ∧
    (([(((1 : ℚ)/10), ["1.0", "2.0"])] : List TumRec) ≠ []) ∧
    (associate [(((1 : ℚ)/10), ["rgb1.png"])] [(((11 : ℚ)/100), ["dep1.png"])]
        [(((1 : ℚ)/10), ["1.0", "2.0"])]).length
      = ([(((1 : ℚ)/10), ["rgb1.png"])] : List TumRec).countP
          (fun r => (emit [(((11 : ℚ)/100), ["dep1.png"])]
            [(((1 : ℚ)/10), ["1.0", "2.0"])] r).isSome) :=
  ⟨by decide, by decide,
   (associate_builds_exact_matches [(((1 : ℚ)/10), ["rgb1.png"])]
     [(((11 : ℚ)/100), ["dep1.png"])] [(((1 : ℚ)/10), ["1.0", "2.0"])]
     (by decide) (by decide)).2.2⟩

/-- C4: during association, a depth or pose record whose minimum absolute
timestamp difference from the color timestamp is exactly 0.02 s is
accepted as a partner, while one whose difference strictly exceeds 0.02 s
causes the color record to be discarded entirely. -/
theorem threshold_boundary (depth pose : List TumRec) (r : TumRec) (di pi : ℕ)
    (hd : bestMatch r.1 depth = some di) (hp : bestMatch r.1 pose = some pi) :
    ((|(depth.getD di recD).1 - r.1| = tol ∧ |(pose.getD pi recD).1 - r.1| ≤ tol) →
        (emit depth pose r).isSome) ∧
    (tol < |(depth.getD di recD).1 - r.1| → emit depth pose r = none) ∧
    ((|(pose.getD pi recD).1 - r.1| = tol ∧ |(depth.getD di recD).1 - r.1| ≤ tol) →
        (emit depth pose r).isSome) ∧
    (tol < |(pose.getD pi recD).1 - r.1| → emit depth pose r = none) := by
  have hdn := (bestMatch_iff _ _ _).mp hd
  have hpn := (bestMatch_iff _ _ _).mp hp
  refine ⟨?_, ?_, ?_, ?_⟩
  · rintro ⟨h1, h2⟩
    rw [(emit_eq_some_iff depth pose r _).mpr ⟨di, pi, hdn, le_of_eq h1, hpn, h2, rfl⟩]
    rfl
  · intro hgt
    cases hm : emit depth pose r with
    | none => rfl
    | some m =>
      obtain ⟨di', pi', hdn', hdt', _, _, _⟩ := (emit_eq_some_iff _ _ _ _).mp hm
      have : di' = di := nearestFirst_unique hdn' hdn
      subst this
      exact absurd hdt' (not_le_of_lt hgt)
  · rintro ⟨h1, h2⟩
    rw [(emit_eq_some_iff depth pose r _).mpr ⟨di, pi, hdn, h2, hpn, le_of_eq h1, rfl⟩]
    rfl
  · intro hgt
    cases hm : emit depth pose r with
    | none => rfl
    | some m =>
      obtain ⟨di', pi', _, _, hpn', hpt', _⟩ := (emit_eq_some_iff _ _ _ _).mp hm
      have : pi' = pi := nearestFirst_unique hpn' hpn
      subst this
      exact absurd hpt' (not_le_of_lt hgt)

/-- Witness for C4: a depth record exactly 0.02 s away is accepted. -/
theorem threshold_boundary_witness :
    bestMatch ((1 : ℚ)/10) [(((3 : ℚ)/25), ["dep.png"])] = some 0 ∧
    bestMatch ((1 : ℚ)/10) [(((1 : ℚ)/10), ["1.0"])] = some 0 ∧
    |(([(((3 : ℚ)/25), ["dep.png"])] : List TumRec).getD 0 recD).1 - (1 : ℚ)/10| = tol ∧
    (emit [(((3 : ℚ)/25), ["dep.png"])] [(((1 : ℚ)/10), ["1.0"])]
      (((1 : ℚ)/10), ["rgb.png"])).isSome :=
  ⟨by decide, by decide, by norm_num [recD, tol],
   (threshold_boundary [(((3 : ℚ)/25), ["dep.png"])] [(((1 : ℚ)/10), ["1.0"])]
     (((1 : ℚ)/10), ["rgb.png"]) 0 0 (by decide) (by decide)).1
     ⟨by norm_num [recD, tol], by norm_num [recD, tol]⟩⟩

/-- Helper: a failing timestamp-token bind at an in-range index comes
from a non-numeric token. -/
theorem bind_none_cases (pnum : String → Option ℚ) (p : List String) (i : ℕ)
    (hi : i < p.length) (h : (p.get? i >>= pnum) = none) :
    ∃ s, p.get? i = some s ∧ pnum s = none := by
  cases hg : p.get? i with
  | none =>
    rw [List.get?_eq_none] at hg
    omega
  | some s =>
    rw [hg] at h
    exact ⟨s, rfl, by simpa using h⟩

/-- Helper: a failing bind at any of the first seven positions makes the
whole pose parse fail. -/
theorem parsePose_none_of_bind (pnum : String → Option ℚ) (p : List String)
    (i : ℕ) (hi : i < 7) (h : (p.get? i >>= pnum) = none) :
    parsePose pnum p = none := by
  simp only [List.get?_eq_getElem?] at h
  rcases e0 : p[0]? >>= pnum with _ | t0
  · simp [parsePose, e0]
  rcases e1 : p[1]? >>= pnum with _ | t1
  · simp [parsePose, e0, e1]
  rcases e2 : p[2]? >>= pnum with _ | t2
  · simp [parsePose, e0, e1, e2]
  rcases e3 : p[3]? >>= pnum with _ | t3
  · simp [parsePose, e0, e1, e2, e3]
  rcases e4 : p[4]? >>= pnum with _ | t4
  · simp [parsePose, e0, e1, e2, e3, e4]
  rcases e5 : p[5]? >>= pnum with _ | t5
  · simp [parsePose, e0, e1, e2, e3, e4, e5]
  rcases e6 : p[6]? >>= pnum with _ | t6
  · simp [parsePose, e0, e1, e2, e3, e4, e5, e6]
  interval_cases i <;> simp_all

/-- C8: from each match's pose tokens, construction parses exactly 7
leading numeric fields as (tx, ty, tz, qx, qy, qz, qw), and fails if
fewer than 7 fields are present or any of the first 7 is non-numeric. -/
theorem parsePose_seven_fields (pnum : String → Option ℚ) (p : List String) :
    (parsePose pnum p = none ↔
      p.length < 7 ∨ ∃ i s, i < 7 ∧ p.get? i = some s ∧ pnum s = none) ∧
    (∀ t0 t1 t2 t3 t4 t5 t6 : ℚ,
      (p.get? 0 >>= pnum) = some t0 → (p.get? 1 >>= pnum) = some t1 →
      (p.get? 2 >>= pnum) = some t2 → (p.get? 3 >>= pnum) = some t3 →
      (p.get? 4 >>= pnum) = some t4 → (p.get? 5 >>= pnum) = some t5 →
      (p.get? 6 >>= pnum) = some t6 →
      parsePose pnum p = some ((t0, t1, t2), (t3, t4, t5, t6))) := by
  constructor
  · constructor
    · intro h
      by_cases h7 : p.length < 7
      · exact Or.inl h7
      · push_neg at h7
        right
        rcases e0 : p[0]? >>= pnum with _ | t0
        · obtain ⟨s, hs1, hs2⟩ := bind_none_cases pnum p 0 (by omega) (by simpa using e0)
          exact ⟨0, s, by omega, hs1, hs2⟩
        rcases e1 : p[1]? >>= pnum with _ | t1
        · obtain ⟨s, hs1, hs2⟩ := bind_none_cases pnum p 1 (by omega) (by simpa using e1)
          exact ⟨1, s, by omega, hs1, hs2⟩
        rcases e2 : p[2]? >>= pnum with _ | t2
        · obtain ⟨s, hs1, hs2⟩ := bind_none_cases pnum p 2 (by omega) (by simpa using e2)
          exact ⟨2, s, by omega, hs1, hs2⟩
        rcases e3 : p[3]? >>= pnum with _ | t3
        · obtain ⟨s, hs1, hs2⟩ := bind_none_cases pnum p 3 (by omega) (by simpa using e3)
          exact ⟨3, s, by omega, hs1, hs2⟩
        rcases e4 : p[4]? >>= pnum with _ | t4
        · obtain ⟨s, hs1, hs2⟩ := bind_none_cases pnum p 4 (by omega) (by simpa using e4)
          exact ⟨4, s, by omega, hs1, hs2⟩
        rcases e5 : p[5]? >>= pnum with _ | t5
        · obtain ⟨s, hs1, hs2⟩ := bind_none_cases pnum p 5 (by omega) (by simpa using e5)
          exact ⟨5, s, by omega, hs1, hs2⟩
        rcases e6 : p[6]? >>= pnum with _ | t6
        · obtain ⟨s, hs1, hs2⟩ := bind_none_cases pnum p 6 (by omega) (by simpa using e6)
          exact ⟨6, s, by omega, hs1, hs2⟩
        exact absurd h (by simp [parsePose, e0, e1, e2, e3, e4, e5, e6])
    · intro h
      rcases h with h7 | ⟨i, s, hi, hs, hn⟩
      · have hg : p.get? 6 = none := List.get?_eq_none.mpr (by omega)
        exact parsePose_none_of_bind pnum p 6 (by omega)
          (by rw [hg]; rfl)
      · exact parsePose_none_of_bind pnum p i hi
          (by rw [hs]; simpa using hn)
  · intro t0 t1 t2 t3 t4 t5 t6 h0 h1 h2 h3 h4 h5 h6
    simp only [List.get?_eq_getElem?] at h0 h1 h2 h3 h4 h5 h6
    simp [parsePose, h0, h1, h2, h3, h4, h5, h6]

/-- Witness for C8 on a concrete 8-token pose line (an extra trailing
token is ignored) and a concrete 3-token line (parse fails). -/
theorem parsePose_seven_fields_witness :
    (pnum0 (["1.0", "2.0", "3.0", "0.0", "0.0", "0.0", "1.0", "9.9"]).headI).isSome ∧
    parsePose pnum0 ["1.0", "2.0", "3.0", "0.0", "0.0", "0.0", "1.0", "9.9"]
      = some ((1, 2, 3), (0, 0, 0, 1)) ∧
    parsePose pnum0 ["1.0", "2.0", "3.0"] = none :=
  ⟨by decide,
   (parsePose_seven_fields pnum0 ["1.0", "2.0", "3.0", "0.0", "0.0", "0.0", "1.0", "9.9"]).2
     1 2 3 0 0 0 1 (by decide) (by decide) (by decide) (by decide) (by decide)
     (by decide) (by decide),
   (parsePose_seven_fields pnum0 ["1.0", "2.0", "3.0"]).1.mpr (Or.inl (by decide))⟩

/-- Helper: in-range lookup returns the `getD` value. -/
theorem get?_eq_some_getD {α : Type} (l : List α) (n : ℕ) (d : α) (h : n < l.length) :
    l.get? n = some (l.getD n d) := by
  simp [List.getD_eq_getElem?_getD, List.get?_eq_getElem?, List.getElem?_eq_getElem h]

/-- Helper: Python subscripting at a nonnegative index is plain lookup. -/
theorem pyGet_ofNat {α : Type} (l : List α) (i : ℕ) : pyGet l (i : ℤ) = l.get? i := by
  unfold pyGet
  rw [if_pos (by omega)]
  simp

/-- Helper: Python subscripting at `-k` with `1 ≤ k ≤ length` counts from
the end. -/
theorem pyGet_neg {α : Type} (l : List α) (k : ℕ) (h1 : 1 ≤ k) (h2 : k ≤ l.length) :
    pyGet l (-(k : ℤ)) = l.get? (l.length - k) := by
  unfold pyGet
  rw [if_neg (by omega), if_pos (by omega)]
  congr 1
  omega

/-- Helper: Python subscripting below `-length` fails. -/
theorem pyGet_neg_oob {α : Type} (l : List α) (i : ℤ) (h : i + l.length < 0) :
    pyGet l i = none := by
  unfold pyGet
  rw [if_neg (by omega), if_neg (by omega)]

/-- Helper: at a valid nonnegative index of a well-formed reader,
`__getitem__` returns the frame built from the stored match. -/
theorem getitem_ok_of_lt (fs : FS) (r : TUMReader) (hw : r.WellFormed)
    (i : ℕ) (hi : i < r.len) : getitem fs r (i : ℤ) = .ok (frameAt fs r i) := by
  obtain ⟨hwd, hwp, hwq⟩ := hw
  unfold getitem
  rw [if_neg (by omega)]
  rw [pyGet_ofNat, pyGet_ofNat, pyGet_ofNat, pyGet_ofNat]
  rw [get?_eq_some_getD r.poses i (0, 0, 0) (by omega),
      get?_eq_some_getD r.quats i (0, 0, 0, 0) (by omega),
      get?_eq_some_getD r.depth_images i "" (by omega),
      get?_eq_some_getD r.rgb_images i "" hi]
  rfl

/-- Helper: `__getitem__` raises for `item ≥ len`. -/
theorem getitem_err_of_ge (fs : FS) (r : TUMReader) (item : ℤ)
    (h : (r.len : ℤ) ≤ item) : getitem fs r item = .error .indexError := by
  unfold getitem
  rw [if_pos h]

/-- Helper: `__getitem__` raises below `-len` (the wrapped Python list
access itself goes out of range). -/
theorem getitem_err_of_neg_oob (fs : FS) (r : TUMReader) (hw : r.WellFormed)
    (item : ℤ) (h : item < -(r.len : ℤ)) :
    getitem fs r item = .error .indexError := by
  obtain ⟨hwd, hwp, hwq⟩ := hw
  unfold getitem
  rw [if_neg (by omega)]
  rw [pyGet_neg_oob r.poses item (by rw [hwp]; omega)]

/-- C2 counterexample: `reader0` has length 1, so `-1` is outside
`[0, length())`, yet the subscript succeeds instead of raising
`IndexOutOfRangeError`. -/
theorem getitem_neg_index_no_error :
    getitem fs0 reader0 (-1) =
      .ok { idx := 0, translation := (1, 2, 3), quat := (0, 0, 0, 1),
            depth := [[1/1000, 1/500]], rgb := [[(1, 2, 3)]] } := by
  norm_num [getitem, pyGet, TUMReader.len, fs0, reader0]

/-- C2 (amended): `get(index)` fails with `IndexOutOfRangeError` for
`index ≥ length()` — in particular `get(length())` — and for
`index < -length()`; a negative index in `[-length(), -1]` does not
raise.  The failure is per-call and does not change the result of `get`
at any valid index. -/
theorem getitem_out_of_range (fs : FS) (r : TUMReader) (hw : r.WellFormed)
    (item : ℤ) :
    (((r.len : ℤ) ≤ item ∨ item < -(r.len : ℤ)) →
      getitem fs r item = .error .indexError) ∧
    (∀ i : ℕ, i < r.len → getitem fs r (i : ℤ) = .ok (frameAt fs r i)) := by
  constructor
  · rintro (h | h)
    · exact getitem_err_of_ge fs r item h
    · exact getitem_err_of_neg_oob fs r hw item h
  · intro i hi
    exact getitem_ok_of_lt fs r hw i hi

/-- Witness for the amended C2 on the concrete reader. -/
theorem getitem_out_of_range_witness :
    reader0.WellFormed ∧ ((1 : ℤ) ≤ (1 : ℤ) ∨ (1 : ℤ) < -(1 : ℤ)) ∧
    getitem fs0 reader0 1 = .error .indexError ∧
    getitem fs0 reader0 0 = .ok (frameAt fs0 reader0 0) :=
  ⟨⟨rfl, rfl, rfl⟩, Or.inl le_rfl,
   (getitem_out_of_range fs0 reader0 ⟨rfl, rfl, rfl⟩ 1).1 (Or.inl (by decide)),
   (getitem_out_of_range fs0 reader0 ⟨rfl, rfl, rfl⟩ 1).2 0 (by decide)⟩

/-- C3: for a reader of length N ≥ 1 and 1 ≤ k ≤ N, the subscript at
`-k` does not raise: it returns the tuple whose first element is
`-k + 1` and whose data is that of the match at position `N - k`. -/
theorem getitem_negative_wraps (fs : FS) (r : TUMReader) (hw : r.WellFormed)
    (k : ℕ) (hk1 : 1 ≤ k) (hk2 : k ≤ r.len) :
    getitem fs r (-(k : ℤ)) =
      .ok { frameAt fs r (r.len - k) with idx := -(k : ℤ) + 1 } := by
  obtain ⟨hwd, hwp, hwq⟩ := hw
  unfold getitem
  rw [if_neg (by omega)]
  rw [pyGet_neg r.poses k hk1 (by omega), pyGet_neg r.quats k hk1 (by omega),
      pyGet_neg r.depth_images k hk1 (by omega), pyGet_neg r.rgb_images k hk1 hk2]
  have hwr : r.rgb_images.length = r.len := rfl
  rw [hwp, hwq, hwd, hwr]
  rw [get?_eq_some_getD r.poses (r.len - k) (0, 0, 0) (by omega),
      get?_eq_some_getD r.quats (r.len - k) (0, 0, 0, 0) (by omega),
      get?_eq_some_getD r.depth_images (r.len - k) "" (by omega),
      get?_eq_some_getD r.rgb_images (r.len - k) "" (by omega)]
  rfl

/-- Witness for C3 at `k = 1` on the concrete reader. -/
theorem getitem_negative_wraps_witness :
    reader0.WellFormed ∧ 1 ≤ 1 ∧ 1 ≤ reader0.len ∧
    getitem fs0 reader0 (-(1 : ℤ)) =
      .ok { frameAt fs0 reader0 (reader0.len - 1) with idx := -(1 : ℤ) + 1 } :=
  ⟨⟨rfl, rfl, rfl⟩, le_rfl, by decide,
   getitem_negative_wraps fs0 reader0 ⟨rfl, rfl, rfl⟩ 1 le_rfl (by decide)⟩

/-- C5: at every valid index `i`, the first element of the returned tuple
is `i + 1`, the deliberate 1-based external index. -/
theorem getitem_one_based (fs : FS) (r : TUMReader) (hw : r.WellFormed)
    (i : ℕ) (hi : i < r.len) (f : Frame) (h : getitem fs r (i : ℤ) = .ok f) :
    f.idx = (i : ℤ) + 1 := by
  rw [getitem_ok_of_lt fs r hw i hi] at h
  injection h with h'
  rw [← h']
  rfl

/-- Witness for C5 at index 0 of the concrete reader. -/
theorem getitem_one_based_witness :
    reader0.WellFormed ∧ 0 < reader0.len ∧
    getitem fs0 reader0 ((0 : ℕ) : ℤ) = .ok (frameAt fs0 reader0 0) ∧
    (frameAt fs0 reader0 0).idx = ((0 : ℕ) : ℤ) + 1 :=
  ⟨⟨rfl, rfl, rfl⟩, by decide,
   getitem_ok_of_lt fs0 reader0 ⟨rfl, rfl, rfl⟩ 0 (by decide),
   getitem_one_based fs0 reader0 ⟨rfl, rfl, rfl⟩ 0 (by decide)
     (frameAt fs0 reader0 0)
     (getitem_ok_of_lt fs0 reader0 ⟨rfl, rfl, rfl⟩ 0 (by decide))⟩

/-- Helper: `__getitem__` never reads the iteration cursor. -/
theorem getitem_set_cursor (fs : FS) (r : TUMReader) (j : ℕ) (i : ℤ) :
    getitem fs { r with file_index := j } i = getitem fs r i := rfl

/-- Helper: one `__next__` step below the length yields the frame at the
cursor and advances the cursor. -/
theorem nextStep_lt (fs : FS) (r : TUMReader) (hw : r.WellFormed) (j : ℕ)
    (hj : j < r.len) :
    nextStep fs { r with file_index := j }
      = some (frameAt fs r j, { r with file_index := j + 1 }) := by
  unfold nextStep
  rw [if_neg (by simpa [TUMReader.len] using not_le.mpr hj)]
  rw [show getitem fs { r with file_index := j } ((({ r with file_index := j } :
        TUMReader).file_index : ℕ) : ℤ) = .ok (frameAt fs r j) from
      (getitem_set_cursor fs r j (j : ℤ)).trans (getitem_ok_of_lt fs r hw j hj)]

/-- Helper: `__next__` raises `StopIteration` once the cursor reaches the
length. -/
theorem nextStep_ge (fs : FS) (r : TUMReader) (j : ℕ) (hj : r.len ≤ j) :
    nextStep fs { r with file_index := j } = none := by
  unfold nextStep
  rw [if_pos (by simpa [TUMReader.len] using hj)]

/-- Helper: draining from cursor `j` with enough fuel yields the frames
at positions `j, j+1, …, len-1` in order. -/
theorem drain_spec (fs : FS) (r : TUMReader) (hw : r.WellFormed) :
    ∀ (fuel j : ℕ), r.len - j ≤ fuel →
      drain fs fuel { r with file_index := j }
        = (List.range' j (r.len - j)).map (frameAt fs r) := by
  intro fuel
  induction fuel with
  | zero =>
    intro j hj
    have h0 : r.len - j = 0 := by omega
    simp [drain, h0]
  | succ fuel ih =>
    intro j hj
    by_cases hend : r.len ≤ j
    · have h0 : r.len - j = 0 := by omega
      simp [drain, nextStep_ge fs r j hend, h0]
    · push_neg at hend
      obtain ⟨n, hn⟩ : ∃ n, r.len - j = n + 1 := ⟨r.len - j - 1, by omega⟩
      have hstep := nextStep_lt fs r hw j hend
      unfold drain
      rw [hstep]
      show frameAt fs r j :: drain fs fuel { r with file_index := j + 1 }
          = (List.range' j (r.len - j)).map (frameAt fs r)
      rw [ih (j + 1) (by omega)]
      have hn' : r.len - (j + 1) = n := by omega
      rw [hn, hn', List.range'_succ j n 1]
      rfl

/-- C6: a full iteration yields exactly the tuples `get(0) … get(N-1)` in
order and then `__next__` signals `StopIteration`; a second full
iteration over any reader differing only in its cursor yields the
identical tuples again. -/
theorem iteration_yields_all (fs : FS) (r : TUMReader) (hw : r.WellFormed) :
    iterate fs r = (List.range r.len).map (frameAt fs r) ∧
    (∀ i : ℕ, i < r.len → getitem fs r (i : ℤ) = .ok (frameAt fs r i)) ∧
    (∀ k : ℕ, r.len ≤ k → nextStep fs { r with file_index := k } = none) ∧
    (∀ r' : TUMReader, iterReset r' = iterReset r → iterate fs r' = iterate fs r) := by
  refine ⟨?_, fun i hi => getitem_ok_of_lt fs r hw i hi,
          fun k hk => nextStep_ge fs r k hk, ?_⟩
  · have h := drain_spec fs r hw (iterReset r).len 0
      (by simp only [iterReset, TUMReader.len]; omega)
    unfold iterate
    rw [show iterReset r = { r with file_index := 0 } from rfl] at h ⊢
    rw [h, List.range_eq_range' r.len]
    rfl
  · intro r' hr
    unfold iterate
    rw [hr]

/-- Witness for C6 on the concrete one-frame reader. -/
theorem iteration_yields_all_witness :
    reader0.WellFormed ∧
    iterate fs0 reader0 = (List.range reader0.len).map (frameAt fs0 reader0) ∧
    nextStep fs0 { reader0 with file_index := 1 } = none ∧
    iterate fs0 { reader0 with file_index := 1 } = iterate fs0 reader0 :=
  ⟨⟨rfl, rfl, rfl⟩,
   (iteration_yields_all fs0 reader0 ⟨rfl, rfl, rfl⟩).1,
   (iteration_yields_all fs0 reader0 ⟨rfl, rfl, rfl⟩).2.2.1 1 (by decide),
   (iteration_yields_all fs0 reader0 ⟨rfl, rfl, rfl⟩).2.2.2
     { reader0 with file_index := 1 } rfl⟩

/-- C7: every pixel of the depth map returned at a valid index is the raw
stored pixel value divided by the depth-scaling divisor, exactly
`v / depth_scaling`. -/
theorem depth_pixels_scaled (fs : FS) (r : TUMReader) (hw : r.WellFormed)
    (i : ℕ) (hi : i < r.len) (f : Frame) (h : getitem fs r (i : ℤ) = .ok f) :
    f.depth = (fs.depthImg (r.depth_images.getD i "")).map
      (List.map (fun (v : ℕ) => (v : ℚ) / r.depth_scaling)) ∧
    (∀ ri ci (row : List ℕ) (v : ℕ),
      (fs.depthImg (r.depth_images.getD i "")).get? ri = some row →
      row.get? ci = some v →
      ∃ qrow, f.depth.get? ri = some qrow ∧
        qrow.get? ci = some ((v : ℚ) / r.depth_scaling)) := by
  rw [getitem_ok_of_lt fs r hw i hi] at h
  injection h with h'
  subst h'
  refine ⟨rfl, ?_⟩
  intro ri ci row v hrow hv
  refine ⟨row.map (fun (v : ℕ) => (v : ℚ) / r.depth_scaling), ?_, ?_⟩
  · show ((fs.depthImg (r.depth_images.getD i "")).map
      (List.map (fun (v : ℕ) => (v : ℚ) / r.depth_scaling))).get? ri = _
    rw [List.get?_map, hrow]
    rfl
  · rw [List.get?_map, hv]
    rfl

/-- Witness for C7: the concrete raw pixel 10 at position (0, 1) comes
back as 10 / 5000. -/
theorem depth_pixels_scaled_witness :
    reader0.WellFormed ∧ 0 < reader0.len ∧
    getitem fs0 reader0 ((0 : ℕ) : ℤ) = .ok (frameAt fs0 reader0 0) ∧
    (fs0.depthImg (reader0.depth_images.getD 0 "")).get? 0 = some [5, 10] ∧
    ([5, 10] : List ℕ).get? 1 = some 10 ∧
    (∃ qrow, (frameAt fs0 reader0 0).depth.get? 0 = some qrow ∧
      qrow.get? 1 = some ((10 : ℚ) / reader0.depth_scaling)) :=
  ⟨⟨rfl, rfl, rfl⟩, by decide,
   getitem_ok_of_lt fs0 reader0 ⟨rfl, rfl, rfl⟩ 0 (by decide),
   rfl, rfl,
   (depth_pixels_scaled fs0 reader0 ⟨rfl, rfl, rfl⟩ 0 (by decide)
     (frameAt fs0 reader0 0)
     (getitem_ok_of_lt fs0 reader0 ⟨rfl, rfl, rfl⟩ 0 (by decide))).2
     0 1 [5, 10] 10 rfl rfl⟩

/-- C9: the pose list file is resolved in a fixed preference order —
`groundtruth.txt` first, then `poses.txt` — taking the first found on
storage, and construction fails with the missing-file error when the
chosen list file is absent. -/
theorem pose_file_resolution (pnum : String → Option ℚ) (fs : FS) (dir : String) :
    ((fs.files (dir ++ "/groundtruth.txt")).isSome →
      resolvePoseFile fs dir = dir ++ "/groundtruth.txt") ∧
    (¬ (fs.files (dir ++ "/groundtruth.txt")).isSome →
      resolvePoseFile fs dir = dir ++ "/poses.txt") ∧
    (∀ rgb depth : List TumRec,
      openAndRead pnum fs (dir ++ "/rgb.txt") = .ok rgb →
      openAndRead pnum fs (dir ++ "/depth.txt") = .ok depth →
      fs.files (resolvePoseFile fs dir) = none →
      load_tum_data pnum fs dir = .error .missingFile) := by
  refine ⟨?_, ?_, ?_⟩
  · intro h
    simp [resolvePoseFile, h]
  · intro h
    simp [resolvePoseFile, h]
  · intro rgb depth h1 h2 h3
    unfold load_tum_data
    rw [h1, h2]
    show (openAndRead pnum fs (resolvePoseFile fs dir)).bind _ = _
    unfold openAndRead
    rw [h3]
    rfl

/-- Witness for C9: `fs0` has `groundtruth.txt` (preferred name chosen);
`fsM` has neither pose file name, `poses.txt` is chosen and construction
fails with the missing-file error. -/
theorem pose_file_resolution_witness :
    (fs0.files ("d" ++ "/groundtruth.txt")).isSome ∧
    resolvePoseFile fs0 "d" = "d" ++ "/groundtruth.txt" ∧
    ¬ (fsM.files ("d" ++ "/groundtruth.txt")).isSome ∧
    resolvePoseFile fsM "d" = "d" ++ "/poses.txt" ∧
    load_tum_data pnum0 fsM "d" = .error .missingFile :=
  ⟨by decide, (pose_file_resolution pnum0 fs0 "d").1 (by decide),
   by decide, (pose_file_resolution pnum0 fsM "d").2.1 (by decide),
   (pose_file_resolution pnum0 fsM "d").2.2 [(((1 : ℚ)/10), ["rgb1.png"])]
     [(((11 : ℚ)/100), ["dep1.png"])] rfl rfl rfl⟩

/-- C10: the `min_range` and `max_range` construction parameters are only
stored, never applied: two readers over the same storage, directory and
depth scaling but different range parameters have the same length and
return the same tuple at every index. -/
theorem ranges_not_applied (pnum : String → Option ℚ) (fs : FS) (dir : String)
    (s m1 M1 m2 M2 : ℚ) (r1 r2 : TUMReader)
    (h1 : mkReader pnum fs dir m1 M1 s = .ok r1)
    (h2 : mkReader pnum fs dir m2 M2 s = .ok r2) :
    r1.len = r2.len ∧ ∀ i : ℤ, getitem fs r1 i = getitem fs r2 i := by
  unfold mkReader at h1 h2
  cases hl : load_tum_data pnum fs dir with
  | error e =>
    rw [hl] at h1
    exact absurd h1 (by simp [Except.map])
  | ok res =>
    rw [hl] at h1 h2
    simp only [Except.map, Except.ok.injEq] at h1 h2
    subst h1
    subst h2
    exact ⟨rfl, fun i => rfl⟩

/-- Witness for C10: two constructions over `fs1` with different range
parameters. -/
theorem ranges_not_applied_witness :
    mkReader pnum0 fs1 "d" (1/100) 30 5000 = .ok (readerE (1/100) 30) ∧
    mkReader pnum0 fs1 "d" 7 9 5000 = .ok (readerE 7 9) ∧
    (readerE (1/100) 30).len = (readerE 7 9).len ∧
    getitem fs1 (readerE (1/100) 30) 0 = getitem fs1 (readerE 7 9) 0 :=
  ⟨rfl, rfl,
   (ranges_not_applied pnum0 fs1 "d" 5000 (1/100) 30 7 9
     (readerE (1/100) 30) (readerE 7 9) rfl rfl).1,
   (ranges_not_applied pnum0 fs1 "d" 5000 (1/100) 30 7 9
     (readerE (1/100) 30) (readerE 7 9) rfl rfl).2 0⟩
